import Mathlib

/-!
Verification development for the catalog processing engine
(`DefaultCatalogProcessingEngine` in
`plugins/catalog-backend-module-openapi/src/lib/bundle.ts`).

The engine's per-item handler (`processTask`), its batch loader
(`loadTasks`) and its `start`/`stop` lifecycle are embedded shallowly.
External collaborators (orchestrator, processing store, stitcher,
error observer) are modelled by a `Behavior` record that fixes, for one
run, what each collaborator call returns or whether it throws.  The
handler is rendered as a pure function from the claimed item and the
collaborator behavior to a trace of externally observable calls plus a
tracker outcome.

JSON values are modelled by the inductive `Json` below; JavaScript
numbers are restricted to integers (the engine only ever inspects
integer `ttl` values, via `Number.isInteger`).  The npm package
`fast-json-stable-stringify` (a canonical, key-order-independent
serializer) is modelled as serialization after recursively sorting
object keys; plain `JSON.stringify` is the same serializer without the
sorting pass.  The crypto digest is modelled collision-freely: the
digest of a run is the concatenation of the strings fed to the hash
builder's `update` calls, exactly as the source feeds them.
-/

inductive Json where
  | null : Json
  | bool : Bool → Json
  | num : Int → Json
  | str : String → Json
  | arr : List Json → Json
  | obj : List (String × Json) → Json

/-- A JavaScript object: an ordered list of key/value fields. -/
abbrev JsonObj := List (String × Json)

namespace Json

/-- Property read `o[k]`: the first field with the given key. -/
def objLookup (fs : JsonObj) (k : String) : Option Json :=
  match fs with
  | [] => none
  | (k', v) :: fs' => if k' = k then some v else objLookup fs' k

/-- Property write `o[k] = v`: replace the first field with the given
key, or append it when absent. -/
def setField (fs : JsonObj) (k : String) (v : Json) : JsonObj :=
  match fs with
  | [] => [(k, v)]
  | (k', v') :: fs' => if k' = k then (k, v) :: fs' else (k', v') :: setField fs' k v

/-- Insert one field into a key-sorted field list (sorting pass of
fast-json-stable-stringify). -/
def insertField (p : String × Json) (fs : JsonObj) : JsonObj :=
  match fs with
  | [] => [p]
  | q :: qs => if p.1 ≤ q.1 then p :: q :: qs else q :: insertField p qs

/-- Sort a field list by key (insertion sort). -/
def sortFields (fs : JsonObj) : JsonObj :=
  match fs with
  | [] => []
  | p :: ps => insertField p (sortFields ps)

mutual

/-- Canonical form of a JSON value: object keys recursively sorted.
Two values have the same canonical form exactly when they differ only
in object key order. -/
def canon : Json → Json
  | .null => .null
  | .bool b => .bool b
  | .num n => .num n
  | .str s => .str s
  | .arr xs => .arr (canonList xs)
  | .obj fs => .obj (sortFields (canonFields fs))

def canonList : List Json → List Json
  | [] => []
  | x :: xs => canon x :: canonList xs

def canonFields : JsonObj → JsonObj
  | [] => []
  | (k, v) :: fs => (k, canon v) :: canonFields fs

end

/-- Escape quotes and backslashes so that string serialization is
unambiguous. -/
def escapeStr (s : String) : String :=
  String.join (s.toList.map fun c =>
    if c = '"' ∨ c = '\\' then "\\" ++ String.singleton c else String.singleton c)

mutual

/-- `JSON.stringify`: plain serialization, preserving object key
order. -/
def stringify : Json → String
  | .null => "null"
  | .bool true => "true"
  | .bool false => "false"
  | .num n => toString n
  | .str s => "\"" ++ escapeStr s ++ "\""
  | .arr xs => "[" ++ stringifyList xs ++ "]"
  | .obj fs => "\x7b" ++ stringifyFields fs ++ "\x7d"

def stringifyList : List Json → String
  | [] => ""
  | [x] => stringify x
  | x :: xs => stringify x ++ "," ++ stringifyList xs

def stringifyFields : JsonObj → String
  | [] => ""
  | [(k, v)] => "\"" ++ escapeStr k ++ "\":" ++ stringify v
  | (k, v) :: fs => "\"" ++ escapeStr k ++ "\":" ++ stringify v ++ "," ++ stringifyFields fs

end

/-- `fast-json-stable-stringify`: canonical, key-order-independent
serialization. -/
def stableStringify (j : Json) : String :=
  stringify (canon j)

/-- `stableStringify` applied to a possibly-`undefined` value
(`stringify(undefined)` is `undefined` in JavaScript, modelled as
`none`). -/
def stableStringifyOpt (j : Option Json) : Option String :=
  j.map stableStringify

end Json

/-!
## Entity references and relations

`stringifyEntityRef` comes from `@backstage/catalog-model`, an external
dependency of the shown file.  Modelled from its documented behavior:
an entity (a value with a `metadata` object) stringifies as
`kind:namespace/name` with `name`/`namespace` read from the metadata,
a compound reference reads them at top level; the namespace defaults
to `default`.  The claims treat this helper as an abstract reference
formatter, so only its functional nature matters; the library's case
normalization of the three parts is omitted here.
-/

namespace Engine

open Json

/-- Read a string-valued field, with a fallback for absent or
non-string values. -/
def strFieldD (fs : JsonObj) (k : String) (d : String) : String :=
  match objLookup fs k with
  | some (.str s) => s
  | _ => d

def mkRefString (kind ns name : String) : String :=
  kind ++ ":" ++ ns ++ "/" ++ name

/-- Modelled external helper `stringifyEntityRef` of
`@backstage/catalog-model`. -/
def stringifyEntityRef (j : Json) : String :=
  match j with
  | .obj fs =>
    match objLookup fs "metadata" with
    | some (.obj md) =>
      mkRefString (strFieldD fs "kind" "") (strFieldD md "namespace" "default")
        (strFieldD md "name" "")
    | _ =>
      mkRefString (strFieldD fs "kind" "") (strFieldD fs "namespace" "default")
        (strFieldD fs "name" "")
  | _ => mkRefString "" "default" ""

/-- `stringifyEntityRef(relation.source)` for one relation of the
orchestrator result. -/
def relationSourceRef (rel : Json) : String :=
  match rel with
  | .obj fs => stringifyEntityRef ((objLookup fs "source").getD .null)
  | _ => stringifyEntityRef .null

/-!
## Data model of the engine (from `bundle.ts`)
-/

/-- `const CACHE_TTL = 5` (bundle.ts line 106). -/
def CACHE_TTL : Int := 5

/-- `RefreshStateItem` fields used by `processTask`.  `state` is the
opaque cache blob (a JSON object or `undefined`), `resultHash` the
digest persisted by the previous run (`undefined` before the first
run).  `nextUpdateAt` is read only by the progress tracker's
queue-delay metric and is omitted. -/
structure RefreshStateItem where
  id : String
  entityRef : String
  unprocessedEntity : JsonObj
  state : Option JsonObj
  locationKey : Option String
  resultHash : Option String

/-- Success payload of `EntityProcessingResult` (`ok: true`).  Errors
are modelled already serialized (`serializeError` of
`@backstage/errors` maps each `Error` to a JSON value). -/
structure OkResult where
  completedEntity : JsonObj
  state : Option JsonObj
  relations : List Json
  deferredEntities : List Json
  refreshKeys : List Json
  errors : List Json

/-- `EntityProcessingResult`: tagged outcome of the orchestrator. -/
inductive EntityProcessingResult where
  | ok : OkResult → EntityProcessingResult
  | err : List Json → Option JsonObj → EntityProcessingResult

/-- Errors of either result variant. -/
def EntityProcessingResult.errors : EntityProcessingResult → List Json
  | .ok r => r.errors
  | .err es _ => es

/-- One run's behavior of the external collaborators: what each call
site returns, or that it throws (`Except.error` / a `true` flag).
`observerThrows` records whether the optional `onProcessingError`
observer rejects; the handler hands it to a detached
`Promise...catch` chain, so nothing downstream may depend on it. -/
structure Behavior where
  orch : Except Unit EntityProcessingResult
  cacheTxThrows : Bool
  listParents : Except Unit (List String)
  errorsTxThrows : Bool
  updatePrev : Except Unit (List String)
  stitchThrows : Bool
  observerThrows : Bool

/-- Externally observable calls made while handling one item. -/
inductive Event where
  | cacheWrite : String → JsonObj → Event
  | parentsQuery : String → Event
  | observerNotify : JsonObj → List Json → Event
  | errorsWrite : String → String → String → Event
  | processedWrite : String → JsonObj → String → String → List Json → List Json →
      Option String → List Json → Event
  | stitchCall : Finset String → Event

/-- Tracker outcome of one item (the four completion signals the
handler can emit). -/
inductive Outcome where
  | unchanged : Outcome
  | errored : Outcome
  | updated : Nat → Outcome
  | failed : Outcome
deriving DecidableEq

/-- Result of one `processTask` run: call trace plus tracker
outcome. -/
structure Effects where
  trace : List Event
  outcome : Outcome

/-!
## The reconciliation algorithm (bundle.ts lines 151-316)
-/

/-- Cache payload of the success path (lines 170-181):
`{ ttl: CACHE_TTL, ...result.state }`, written only when the states'
stable serializations differ.  JavaScript object spread: keys of the
base in order with values overridden by the spread source, then the
source's remaining keys. -/
def jsMergeFields (base extra : JsonObj) : JsonObj :=
  base.map (fun p =>
    match objLookup extra p.1 with
    | some v => (p.1, v)
    | none => p)
  ++ extra.filter (fun q => (objLookup base q.1).isNone)

def okCachePayload (prev new : Option JsonObj) : Option JsonObj :=
  if stableStringifyOpt (prev.map Json.obj) = stableStringifyOpt (new.map Json.obj) then
    none
  else
    some (jsMergeFields [("ttl", Json.num CACHE_TTL)] (new.getD []))

/-- Cache payload of the failure path (lines 182-191):
`ttl > 0 ? { ...state, ttl: ttl - 1 } : \x7b\x7d`, where `ttl` is the
state's `ttl` field when it is an integer and `0` otherwise. -/
def failCachePayload (prev : Option JsonObj) : JsonObj :=
  match prev.bind (fun fs => objLookup fs "ttl") with
  | some (.num n) =>
    if n > 0 then jsMergeFields (prev.getD []) [("ttl", Json.num (n - 1))] else []
  | _ => []

/-- The cache write of step one: `none` when the success path skips
the write because the states agree. -/
def cachePayload (state : Option JsonObj) : EntityProcessingResult → Option JsonObj
  | .ok r => okCachePayload state r.state
  | .err _ _ => some (failCachePayload state)

/-- `JSON.stringify(result.errors.map(e => serializeError(e)))`
(lines 201-203). -/
def errorsStringOf (res : EntityProcessingResult) : String :=
  Json.stringify (.arr res.errors)

/-- The digest of lines 205-223: the hash builder is updated with the
serialized errors and, only for successful results, the stable
serializations of the completed entity, the deferred entities, the
relations, the refresh keys and the parents fetched from the store.
The digest is modelled collision-freely as the concatenation of the
updates. -/
def resultHashOf (res : EntityProcessingResult) (parents : List String) : String :=
  match res with
  | .err es _ => Json.stringify (.arr es)
  | .ok r =>
    Json.stringify (.arr r.errors)
      ++ stableStringify (.obj r.completedEntity)
      ++ stableStringify (.arr r.deferredEntities)
      ++ stableStringify (.arr r.relations)
      ++ stableStringify (.arr r.refreshKeys)
      ++ stableStringify (.arr (parents.map Json.str))

/-- `result.completedEntity.metadata.uid = id` (line 270): `none` when
`metadata` is not an object (a JavaScript `TypeError`, caught by the
handler's top-level catch). -/
def stampUid (id : String) (e : JsonObj) : Option JsonObj :=
  match objLookup e "metadata" with
  | some (.obj md) => some (setField e "metadata" (.obj (setField md "uid" (.str id))))
  | _ => none

/-- Stitch set of the success path (lines 289-307): the completed
entity's own reference plus the symmetric difference of old and new
relation source reference sets. -/
def stitchSetFor (stamped : JsonObj) (oldSources : List String)
    (relations : List Json) : Finset String :=
  let newS : Finset String := (relations.map relationSourceRef).toFinset
  let oldS : Finset String := oldSources.toFinset
  insert (stringifyEntityRef (.obj stamped)) ((newS \ oldS) ∪ (oldS \ newS))

/-- The per-item handler `processTask` (lines 151-316) as a pure
function of the item and the collaborators' behavior.  A throwing
collaborator call is recorded in the trace (the call was made) and
short-circuits to the top-level catch, which marks the item failed;
the detached error-observer notification cannot affect anything. -/
def processTask (item : RefreshStateItem) (b : Behavior) : Effects :=
  match b.orch with
  | .error _ => ⟨[], .failed⟩
  | .ok result =>
    let cacheOpt := cachePayload item.state result
    let t0 : List Event :=
      match cacheOpt with
      | some st => [.cacheWrite item.id st]
      | none => []
    if cacheOpt.isSome && b.cacheTxThrows then ⟨t0, .failed⟩
    else
      match result with
      | .err es st =>
        let resultHash := resultHashOf (.err es st) []
        if item.resultHash = some resultHash then ⟨t0, .unchanged⟩
        else
          let t1 := t0 ++ [.observerNotify item.unprocessedEntity es,
            .errorsWrite item.id (Json.stringify (.arr es)) resultHash]
          if b.errorsTxThrows then ⟨t1, .failed⟩
          else
            let t2 := t1 ++ [.stitchCall {stringifyEntityRef (.obj item.unprocessedEntity)}]
            if b.stitchThrows then ⟨t2, .failed⟩ else ⟨t2, .errored⟩
      | .ok r =>
        match b.listParents with
        | .error _ => ⟨t0 ++ [.parentsQuery item.entityRef], .failed⟩
        | .ok parents =>
          let t1 := t0 ++ [.parentsQuery item.entityRef]
          let resultHash := resultHashOf (.ok r) parents
          if item.resultHash = some resultHash then ⟨t1, .unchanged⟩
          else
            match stampUid item.id r.completedEntity with
            | none => ⟨t1, .failed⟩
            | some stamped =>
              let t2 := t1 ++ [.processedWrite item.id stamped resultHash
                (Json.stringify (.arr r.errors)) r.relations r.deferredEntities
                item.locationKey r.refreshKeys]
              match b.updatePrev with
              | .error _ => ⟨t2, .failed⟩
              | .ok prevSources =>
                let s := stitchSetFor stamped prevSources r.relations
                let t3 := t2 ++ [.stitchCall s]
                if b.stitchThrows then ⟨t3, .failed⟩ else ⟨t3, .updated s.card⟩

/-!
## Trace projections
-/

/-- `updateEntityCache` calls in a trace. -/
def cacheWrites (t : List Event) : List (String × JsonObj) :=
  t.filterMap fun e =>
    match e with
    | .cacheWrite i s => some (i, s)
    | _ => none

/-- `updateProcessedEntityErrors` calls in a trace. -/
def errorsWrites (t : List Event) : List (String × String × String) :=
  t.filterMap fun e =>
    match e with
    | .errorsWrite i es h => some (i, es, h)
    | _ => none

/-- `updateProcessedEntity` calls in a trace (the full events). -/
def processedWrites (t : List Event) : List Event :=
  t.filter fun e =>
    match e with
    | .processedWrite _ _ _ _ _ _ _ _ => true
    | _ => false

/-- `stitch` calls in a trace. -/
def stitchCalls (t : List Event) : List (Finset String) :=
  t.filterMap fun e =>
    match e with
    | .stitchCall s => some s
    | _ => none

/-- Error-observer notifications in a trace. -/
def observerNotifies (t : List Event) : List (JsonObj × List Json) :=
  t.filterMap fun e =>
    match e with
    | .observerNotify u es => some (u, es)
    | _ => none

end Engine

namespace Engine

/-!
## Lifecycle and batch loader (bundle.ts lines 127-150, 320-325)
-/

/-- `start()` guard: the engine keeps a `stopFunc` handle; `start`
throws synchronously when it is present, and otherwise transitions to
the started state.  The lifecycle state is the presence of the
handle. -/
def engineStart (started : Bool) : Except String Bool :=
  if started then Except.error "Processing engine is already started"
  else Except.ok true

/-- `stop()`: clears the handle, invoking the pipeline's stop function
exactly when one was present.  Returns the new lifecycle state and
whether the pipeline was halted. -/
def engineStop (started : Bool) : Bool × Bool :=
  (false, started)

/-- The `loadTasks` closure wired by `start()`: runs the store
transaction claiming a batch of the requested size, and on a throw
logs and returns the empty list.  The store is modelled as a function
from the requested batch size to the items it yields, or a throw. -/
def loadTasks (store : Nat → Except Unit (List RefreshStateItem))
    (count : Nat) : List RefreshStateItem :=
  match store count with
  | .ok items => items
  | .error _ => []

/-!
## Unfolded runs of `processTask`

`errRun`/`okRun` spell out the two orchestrator-result branches of
`processTask`; the lemmas `processTask_err`/`processTask_ok` prove
they are exactly what `processTask` does.
-/

/-- The failure branch (`ok = false`) of the handler, unfolded. -/
def errRun (item : RefreshStateItem) (b : Behavior) (es : List Json)
    (st : Option JsonObj) : Effects :=
  let cw := Event.cacheWrite item.id (failCachePayload item.state)
  let rh := resultHashOf (.err es st) []
  if b.cacheTxThrows then ⟨[cw], .failed⟩
  else if item.resultHash = some rh then ⟨[cw], .unchanged⟩
  else
    let t1 := [cw, Event.observerNotify item.unprocessedEntity es,
      Event.errorsWrite item.id (Json.stringify (.arr es)) rh]
    if b.errorsTxThrows then ⟨t1, .failed⟩
    else
      let t2 := t1 ++ [Event.stitchCall {stringifyEntityRef (.obj item.unprocessedEntity)}]
      if b.stitchThrows then ⟨t2, .failed⟩ else ⟨t2, .errored⟩

/-- The success branch (`ok = true`) of the handler, unfolded. -/
def okRun (item : RefreshStateItem) (b : Behavior) (r : OkResult) : Effects :=
  let cacheOpt := okCachePayload item.state r.state
  let t0 : List Event :=
    match cacheOpt with
    | some stp => [.cacheWrite item.id stp]
    | none => []
  if cacheOpt.isSome && b.cacheTxThrows then ⟨t0, .failed⟩
  else
    match b.listParents with
    | .error _ => ⟨t0 ++ [.parentsQuery item.entityRef], .failed⟩
    | .ok parents =>
      let t1 := t0 ++ [.parentsQuery item.entityRef]
      let rh := resultHashOf (.ok r) parents
      if item.resultHash = some rh then ⟨t1, .unchanged⟩
      else
        match stampUid item.id r.completedEntity with
        | none => ⟨t1, .failed⟩
        | some stamped =>
          let t2 := t1 ++ [.processedWrite item.id stamped rh
            (Json.stringify (.arr r.errors)) r.relations r.deferredEntities
            item.locationKey r.refreshKeys]
          match b.updatePrev with
          | .error _ => ⟨t2, .failed⟩
          | .ok prevSources =>
            let s := stitchSetFor stamped prevSources r.relations
            let t3 := t2 ++ [.stitchCall s]
            if b.stitchThrows then ⟨t3, .failed⟩ else ⟨t3, .updated s.card⟩

theorem processTask_err (item : RefreshStateItem) (b : Behavior)
    (es : List Json) (st : Option JsonObj)
    (h : b.orch = .ok (.err es st)) :
    processTask item b = errRun item b es st := by
  unfold processTask errRun
  rw [h]
  rfl

theorem processTask_ok (item : RefreshStateItem) (b : Behavior) (r : OkResult)
    (h : b.orch = .ok (.ok r)) :
    processTask item b = okRun item b r := by
  unfold processTask okRun
  rw [h]
  rfl

theorem processTask_throw (item : RefreshStateItem) (b : Behavior)
    (h : b.orch = .error ()) :
    processTask item b = ⟨[], .failed⟩ := by
  unfold processTask
  rw [h]

end Engine

namespace Json

/-!
## Lookup and merge lemmas
-/

theorem objLookup_append (l₁ l₂ : JsonObj) (k : String) :
    objLookup (l₁ ++ l₂) k =
      match objLookup l₁ k with
      | some v => some v
      | none => objLookup l₂ k := by
  induction l₁ with
  | nil => simp [objLookup]
  | cons p ps ih =>
    by_cases h : p.1 = k
    · simp [objLookup, h]
    · simpa [objLookup, h] using ih

theorem objLookup_map_merge (base extra : JsonObj) (k : String) :
    objLookup
      (base.map fun p =>
        match objLookup extra p.1 with
        | some v => (p.1, v)
        | none => p) k =
      (objLookup base k).map fun v => (objLookup extra k).getD v := by
  induction base with
  | nil => simp [objLookup]
  | cons p ps ih =>
    by_cases h : p.1 = k
    · subst h
      cases he : objLookup extra p.1 <;> simp [objLookup, he]
    · cases he : objLookup extra p.1 <;> simp [objLookup, h, he, ih]

theorem objLookup_filter_of_key (l : JsonObj) (p : String × Json → Bool)
    (k : String) (hp : ∀ v, p (k, v) = true) :
    objLookup (l.filter p) k = objLookup l k := by
  induction l with
  | nil => simp
  | cons q qs ih =>
    by_cases hk : q.1 = k
    · have : p q = true := by
        obtain ⟨k', v'⟩ := q
        simp only at hk
        subst hk
        exact hp v'
      simp [List.filter_cons, this, objLookup, hk]
    · by_cases hq : p q = true
      · simp [List.filter_cons, hq, objLookup, hk, ih]
      · rw [List.filter_cons, if_neg hq, ih]
        simp [objLookup, hk]

/-- Field lookup after a JavaScript spread merge: a key of the base is
overridden by the spread source when the source carries it, and a key
absent from the base is looked up in the source. -/
theorem objLookup_jsMergeFields (base extra : JsonObj) (k : String) :
    objLookup (Engine.jsMergeFields base extra) k =
      match objLookup base k with
      | some v => some ((objLookup extra k).getD v)
      | none => objLookup extra k := by
  unfold Engine.jsMergeFields
  rw [objLookup_append]
  rw [objLookup_map_merge]
  cases hb : objLookup base k with
  | some v => simp
  | none =>
    simp only [Option.map_none]
    exact objLookup_filter_of_key extra _ k (fun v => by simp [hb])

end Json

namespace Json

/-!
## Key-order independence of the canonical serialization

Sorting object fields by key is invariant under permutations of the
field list (for genuine JavaScript objects, whose keys are distinct),
so `stableStringify` is independent of object key order.
-/

theorem insertField_comm (p q : String × Json) (h : p.1 ≠ q.1) (l : JsonObj) :
    insertField p (insertField q l) = insertField q (insertField p l) := by
  induction l with
  | nil =>
    simp only [insertField]
    rcases le_total p.1 q.1 with hpq | hqp
    · have hqp' : ¬q.1 ≤ p.1 := fun hc => h (le_antisymm hpq hc)
      rw [if_pos hpq, if_neg hqp']
    · have hpq' : ¬p.1 ≤ q.1 := fun hc => h (le_antisymm hc hqp)
      rw [if_neg hpq', if_pos hqp]
  | cons r rs ih =>
    simp only [insertField]
    by_cases hqr : q.1 ≤ r.1 <;> by_cases hpr : p.1 ≤ r.1
    · rcases le_total p.1 q.1 with hpq | hqp
      · have hqp' : ¬q.1 ≤ p.1 := fun hc => h (le_antisymm hpq hc)
        simp [insertField, hpq, hqr, hpr, hqp']
      · have hpq' : ¬p.1 ≤ q.1 := fun hc => h (le_antisymm hc hqp)
        simp [insertField, hpq', hqp, hqr, hpr]
    · have hpq' : ¬p.1 ≤ q.1 := fun hc => hpr (le_trans hc hqr)
      simp [insertField, hqr, hpr, hpq']
    · have hqp' : ¬q.1 ≤ p.1 := fun hc => hqr (le_trans hc hpr)
      simp [insertField, hqr, hpr, hqp']
    · simp [insertField, hqr, hpr, ih]

theorem sortFields_perm_eq {l₁ l₂ : JsonObj} (h : l₁.Perm l₂)
    (hn : (l₁.map Prod.fst).Nodup) : sortFields l₁ = sortFields l₂ := by
  induction h with
  | nil => rfl
  | cons x h ih =>
    simp only [List.map_cons, List.nodup_cons] at hn
    simp only [sortFields, ih hn.2]
  | swap x y l =>
    simp only [List.map_cons, List.nodup_cons, List.mem_cons] at hn
    have hxy : y.1 ≠ x.1 := fun hc => hn.1 (Or.inl hc)
    simp only [sortFields]
    exact insertField_comm y x hxy (sortFields l)
  | trans h₁ h₂ ih₁ ih₂ =>
    have hn₂ := (h₁.map Prod.fst).nodup hn
    exact (ih₁ hn).trans (ih₂ hn₂)

theorem canonFields_eq_map (fs : JsonObj) :
    canonFields fs = fs.map fun p => (p.1, canon p.2) := by
  induction fs with
  | nil => rfl
  | cons p ps ih =>
    obtain ⟨k, v⟩ := p
    simp [canonFields, ih]

/-- Canonicalization ignores object key order: permuting the fields of
an object with distinct keys leaves the canonical form unchanged. -/
theorem canon_obj_perm {f₁ f₂ : JsonObj} (h : f₁.Perm f₂)
    (hn : (f₁.map Prod.fst).Nodup) :
    canon (.obj f₁) = canon (.obj f₂) := by
  have hperm : (canonFields f₁).Perm (canonFields f₂) := by
    rw [canonFields_eq_map, canonFields_eq_map]
    exact h.map _
  have hkeys : ((canonFields f₁).map Prod.fst).Nodup := by
    rw [canonFields_eq_map, List.map_map]
    exact hn
  simp only [canon]
  rw [sortFields_perm_eq hperm hkeys]

/-- `stableStringify` ignores object key order. -/
theorem stableStringify_obj_perm {f₁ f₂ : JsonObj} (h : f₁.Perm f₂)
    (hn : (f₁.map Prod.fst).Nodup) :
    stableStringify (.obj f₁) = stableStringify (.obj f₂) := by
  unfold stableStringify
  rw [canon_obj_perm h hn]

end Json

namespace Engine

/-!
## Trace characterizations of the two run shapes
-/

theorem cacheWrites_errRun (item : RefreshStateItem) (b : Behavior)
    (es : List Json) (st : Option JsonObj) :
    cacheWrites (errRun item b es st).trace =
      [(item.id, failCachePayload item.state)] := by
  simp only [errRun]
  split_ifs <;>
    simp [cacheWrites, List.filterMap_append, List.filterMap_cons]

theorem cacheWrites_okRun (item : RefreshStateItem) (b : Behavior) (r : OkResult) :
    cacheWrites (okRun item b r).trace =
      match okCachePayload item.state r.state with
      | some p => [(item.id, p)]
      | none => [] := by
  simp only [okRun]
  repeat' split
  all_goals rfl

end Engine

namespace Engine

/-!
## The failure-path ttl arithmetic (`Number.isInteger(state?.ttl)`)
-/

/-- `Number.isInteger(state?.ttl)` of the failure path. -/
def hasIntegerTtl (s : Option JsonObj) : Bool :=
  match s.bind (fun fs => Json.objLookup fs "ttl") with
  | some (.num _) => true
  | _ => false

/-- The `ttl` value the failure path works with: the state's `ttl`
field when it is an integer, else `0`. -/
def ttlInt (s : Option JsonObj) : Int :=
  match s.bind (fun fs => Json.objLookup fs "ttl") with
  | some (.num n) => n
  | _ => 0

theorem failCachePayload_eq (s : Option JsonObj) :
    failCachePayload s =
      if ttlInt s > 0 then
        jsMergeFields (s.getD []) [("ttl", Json.num (ttlInt s - 1))]
      else [] := by
  unfold failCachePayload ttlInt
  cases h : s.bind (fun fs => Json.objLookup fs "ttl") with
  | none => simp
  | some v => cases v <;> simp

theorem failCachePayload_of_no_integer_ttl (s : Option JsonObj)
    (h : hasIntegerTtl s = false) : failCachePayload s = [] := by
  unfold hasIntegerTtl at h
  unfold failCachePayload
  cases hv : s.bind (fun fs => Json.objLookup fs "ttl") with
  | none => simp
  | some v => cases v <;> simp_all

theorem objLookup_merge_ttl (base : JsonObj) (v : Json) :
    Json.objLookup (jsMergeFields base [("ttl", v)]) "ttl" = some v := by
  rw [Json.objLookup_jsMergeFields]
  cases h : Json.objLookup base "ttl" <;> simp [Json.objLookup]

end Engine

namespace Engine

/-- Claim C8: `start()` on an already started engine throws the
already-started error synchronously; `stop()` when not started is an
idempotent no-op that does not invoke the pipeline handle; `stop()`
when started halts the pipeline (invokes the handle) and returns the
engine to a state from which `start()` succeeds again. -/
theorem claim_C8 :
    engineStart true = Except.error "Processing engine is already started" ∧
    engineStart false = Except.ok true ∧
    engineStop false = (false, false) ∧
    engineStop true = (false, true) ∧
    engineStart (engineStop true).1 = Except.ok true :=
  ⟨rfl, rfl, rfl, rfl, rfl⟩

/-- Claim C9: when the store transaction claiming a batch throws, the
`loadTasks` closure wired by `start()` returns the empty list instead
of propagating the exception. -/
theorem claim_C9 (store : Nat → Except Unit (List RefreshStateItem)) (count : Nat)
    (h : store count = .error ()) :
    loadTasks store count = [] := by
  unfold loadTasks
  rw [h]

/-- Witness for C9: a store that always throws yields zero items for a
batch request of five. -/
theorem claim_C9_witness :
    loadTasks (fun _ => .error ()) 5 = [] :=
  claim_C9 (fun _ => .error ()) 5 rfl

end Engine

namespace Engine

/-- Claim C1: for a successful orchestrator result, when the derived
state differs from the previous state under the canonical
key-order-independent serialization, exactly one `updateEntityCache`
call occurs and it persists the new state merged over a `ttl` field
set to the constant `CACHE_TTL = 5` (so `ttl` is `5` whenever the new
state carries no own `ttl`); when the two serializations agree, no
`updateEntityCache` call occurs. -/
theorem claim_C1 (item : RefreshStateItem) (b : Behavior) (r : OkResult)
    (horch : b.orch = .ok (.ok r)) :
    (Json.stableStringifyOpt (item.state.map Json.obj) ≠
        Json.stableStringifyOpt (r.state.map Json.obj) →
      cacheWrites (processTask item b).trace =
        [(item.id, jsMergeFields [("ttl", Json.num CACHE_TTL)] (r.state.getD []))] ∧
      Json.objLookup (jsMergeFields [("ttl", Json.num CACHE_TTL)] (r.state.getD []))
          "ttl" =
        some ((Json.objLookup (r.state.getD []) "ttl").getD (Json.num CACHE_TTL))) ∧
    (Json.stableStringifyOpt (item.state.map Json.obj) =
        Json.stableStringifyOpt (r.state.map Json.obj) →
      cacheWrites (processTask item b).trace = []) := by
  rw [processTask_ok item b r horch, cacheWrites_okRun]
  constructor
  · intro hne
    have hc : okCachePayload item.state r.state =
        some (jsMergeFields [("ttl", Json.num CACHE_TTL)] (r.state.getD [])) := by
      unfold okCachePayload
      rw [if_neg hne]
    rw [hc]
    refine ⟨rfl, ?_⟩
    rw [Json.objLookup_jsMergeFields]
    simp [Json.objLookup]
  · intro heq
    have hc : okCachePayload item.state r.state = none := by
      unfold okCachePayload
      rw [if_pos heq]
    rw [hc]

/-- Witness item for C1: no previous state, derived state `{k: 1}`. -/
def c1item : RefreshStateItem :=
  ⟨"uid-1", "component:default/a",
    [("kind", .str "Component"), ("metadata", .obj [("name", .str "a")])],
    none, none, none⟩

def c1r : OkResult :=
  ⟨[("kind", .str "Component"), ("metadata", .obj [("name", .str "a")])],
    some [("k", .num 1)], [], [], [], []⟩

def c1b : Behavior :=
  ⟨.ok (.ok c1r), false, .ok [], false, .ok [], false, false⟩

/-- Witness for C1: with no previous state and derived state `{k: 1}`,
exactly one cache write occurs and it carries `ttl = 5`. -/
theorem claim_C1_witness :
    cacheWrites (processTask c1item c1b).trace =
      [(c1item.id, jsMergeFields [("ttl", Json.num CACHE_TTL)] (c1r.state.getD []))] ∧
    Json.objLookup (jsMergeFields [("ttl", Json.num CACHE_TTL)] (c1r.state.getD []))
        "ttl" =
      some ((Json.objLookup (c1r.state.getD []) "ttl").getD (Json.num CACHE_TTL)) :=
  (claim_C1 c1item c1b c1r rfl).1 (by simp [c1item, c1r, Json.stableStringifyOpt])

end Engine

namespace Engine

theorem trace_head_errRun (item : RefreshStateItem) (b : Behavior)
    (es : List Json) (st : Option JsonObj) :
    (errRun item b es st).trace.head? =
      some (.cacheWrite item.id (failCachePayload item.state)) := by
  simp only [errRun]
  split_ifs <;> rfl

/-- Claim C5: on a failed orchestrator result the handler persists the
old cache state with `ttl` decremented (when the old integer `ttl` is
positive), persists the empty state once `ttl` is zero or below (or
not an integer), the persisted `ttl` is exactly one less than the old
one, and the persisted `ttl` value never goes negative. -/
theorem claim_C5 (item : RefreshStateItem) (b : Behavior) (es : List Json)
    (st : Option JsonObj) (horch : b.orch = .ok (.err es st)) :
    cacheWrites (processTask item b).trace =
      [(item.id, failCachePayload item.state)] ∧
    (0 < ttlInt item.state →
      failCachePayload item.state =
        jsMergeFields (item.state.getD [])
          [("ttl", Json.num (ttlInt item.state - 1))] ∧
      ttlInt (some (failCachePayload item.state)) = ttlInt item.state - 1) ∧
    (ttlInt item.state ≤ 0 → failCachePayload item.state = []) ∧
    0 ≤ ttlInt (some (failCachePayload item.state)) := by
  have hmain : cacheWrites (processTask item b).trace =
      [(item.id, failCachePayload item.state)] := by
    rw [processTask_err item b es st horch]
    exact cacheWrites_errRun item b es st
  have hpos : 0 < ttlInt item.state →
      failCachePayload item.state =
        jsMergeFields (item.state.getD [])
          [("ttl", Json.num (ttlInt item.state - 1))] ∧
      ttlInt (some (failCachePayload item.state)) = ttlInt item.state - 1 := by
    intro ht
    have he := failCachePayload_eq item.state
    rw [if_pos ht] at he
    refine ⟨he, ?_⟩
    rw [he]
    unfold ttlInt
    rw [Option.some_bind, objLookup_merge_ttl]
  have hzero : ttlInt item.state ≤ 0 → failCachePayload item.state = [] := by
    intro ht
    rw [failCachePayload_eq, if_neg (not_lt.mpr ht)]
  refine ⟨hmain, hpos, hzero, ?_⟩
  rcases lt_or_le 0 (ttlInt item.state) with h | h
  · rw [(hpos h).2]
    omega
  · rw [hzero h]
    simp [ttlInt, Json.objLookup]

def c5item : RefreshStateItem :=
  ⟨"uid-5", "component:default/e", [("kind", .str "Component")],
    some [("ttl", .num 3), ("k", .str "v")], none, none⟩

def c5b : Behavior :=
  ⟨.ok (.err [] none), false, .ok [], false, .ok [], false, false⟩

/-- Witness for C5: a failure with old state `{ttl: 3, k: "v"}` writes
the cache exactly once, with the ttl decremented to two. -/
theorem claim_C5_witness :
    cacheWrites (processTask c5item c5b).trace =
      [(c5item.id, failCachePayload c5item.state)] ∧
    failCachePayload c5item.state =
      jsMergeFields (c5item.state.getD [])
        [("ttl", Json.num (ttlInt c5item.state - 1))] :=
  have h := claim_C5 c5item c5b [] none rfl
  ⟨h.1, (h.2.1 (by decide)).1⟩

/-- Claim C10: on every failed orchestrator result exactly one
`updateEntityCache` call occurs and it is the first collaborator call
of the run — in particular it still happens when the result hash is
unchanged and the run ends `UNCHANGED` — and when the previous state
is absent or carries no integer `ttl` the persisted state is the empty
object. -/
theorem claim_C10 (item : RefreshStateItem) (b : Behavior) (es : List Json)
    (st : Option JsonObj) (horch : b.orch = .ok (.err es st)) :
    cacheWrites (processTask item b).trace =
      [(item.id, failCachePayload item.state)] ∧
    (processTask item b).trace.head? =
      some (.cacheWrite item.id (failCachePayload item.state)) ∧
    (b.cacheTxThrows = false →
      item.resultHash = some (resultHashOf (.err es st) []) →
      processTask item b =
        ⟨[.cacheWrite item.id (failCachePayload item.state)], .unchanged⟩) ∧
    (hasIntegerTtl item.state = false → failCachePayload item.state = []) := by
  rw [processTask_err item b es st horch]
  refine ⟨cacheWrites_errRun item b es st, trace_head_errRun item b es st, ?_, ?_⟩
  · intro hct hh
    simp only [errRun, hct, Bool.false_eq_true, if_false, if_pos hh]
  · exact failCachePayload_of_no_integer_ttl item.state

def c10item : RefreshStateItem :=
  ⟨"uid-10", "component:default/f", [("kind", .str "Component")],
    none, none, some (resultHashOf (.err [] none) [])⟩

def c10b : Behavior :=
  ⟨.ok (.err [] none), false, .ok [], false, .ok [], false, false⟩

/-- Witness for C10: a failure with absent previous state and an
unchanged result hash still writes the cache (the empty state), as the
only call of the run, and the run ends `UNCHANGED`. -/
theorem claim_C10_witness :
    processTask c10item c10b =
      ⟨[.cacheWrite c10item.id (failCachePayload c10item.state)], .unchanged⟩ ∧
    failCachePayload c10item.state = [] :=
  have h := claim_C10 c10item c10b [] none rfl
  ⟨h.2.2.1 rfl rfl, h.2.2.2 rfl⟩

end Engine

namespace Engine

/-- Claim C2: when the computed result hash equals the previous one,
the run stops after the cache-bookkeeping step: the tracker marks the
item `UNCHANGED` and no `updateProcessedEntity`, no
`updateProcessedEntityErrors` and no stitch call occur. -/
theorem claim_C2 (item : RefreshStateItem) (b : Behavior)
    (res : EntityProcessingResult) (ps : List String)
    (horch : b.orch = .ok res) (hct : b.cacheTxThrows = false)
    (hlp : b.listParents = .ok ps)
    (hhash : item.resultHash = some (resultHashOf res ps)) :
    (processTask item b).outcome = .unchanged ∧
    processedWrites (processTask item b).trace = [] ∧
    errorsWrites (processTask item b).trace = [] ∧
    stitchCalls (processTask item b).trace = [] := by
  cases res with
  | err es st =>
    rw [processTask_err item b es st horch]
    simp only [errRun, hct, Bool.false_eq_true, if_false]
    have hhash' : item.resultHash = some (resultHashOf (.err es st) []) := hhash
    rw [if_pos hhash']
    exact ⟨rfl, rfl, rfl, rfl⟩
  | ok r =>
    rw [processTask_ok item b r horch]
    simp only [okRun, hct, Bool.and_false, Bool.false_eq_true, if_false, hlp]
    rw [if_pos hhash]
    cases hc : okCachePayload item.state r.state <;>
      exact ⟨rfl, rfl, rfl, rfl⟩

def c2item : RefreshStateItem :=
  ⟨"uid-2", "component:default/b", [("kind", .str "Component")],
    none, none, some (resultHashOf (.err [] none) [])⟩

def c2b : Behavior :=
  ⟨.ok (.err [] none), false, .ok [], false, .ok [], false, false⟩

/-- Witness for C2: a failed result whose hash matches the stored one
marks the item unchanged and performs no further writes and no
stitch. -/
theorem claim_C2_witness :
    (processTask c2item c2b).outcome = .unchanged ∧
    processedWrites (processTask c2item c2b).trace = [] ∧
    errorsWrites (processTask c2item c2b).trace = [] ∧
    stitchCalls (processTask c2item c2b).trace = [] :=
  claim_C2 c2item c2b (.err [] none) [] rfl rfl rfl rfl

end Engine

namespace Engine

/-- Claim C3: for a successful result with a changed hash, the set
passed to the stitcher is exactly the completed entity's own reference
together with the symmetric difference of the new relation source
references and the previously stored relation source references. -/
theorem claim_C3 (item : RefreshStateItem) (b : Behavior) (r : OkResult)
    (ps prev : List String) (md : JsonObj)
    (horch : b.orch = .ok (.ok r))
    (hct : b.cacheTxThrows = false)
    (hlp : b.listParents = .ok ps)
    (hhash : item.resultHash ≠ some (resultHashOf (.ok r) ps))
    (hmd : Json.objLookup r.completedEntity "metadata" = some (.obj md))
    (hupd : b.updatePrev = .ok prev) :
    stitchCalls (processTask item b).trace =
      [insert
        (stringifyEntityRef (.obj (Json.setField r.completedEntity "metadata"
          (.obj (Json.setField md "uid" (.str item.id))))))
        (((r.relations.map relationSourceRef).toFinset \ prev.toFinset) ∪
          (prev.toFinset \ (r.relations.map relationSourceRef).toFinset))] := by
  rw [processTask_ok item b r horch]
  simp only [okRun, hct, Bool.and_false, Bool.false_eq_true, if_false, hlp]
  rw [if_neg hhash]
  simp only [stampUid, hmd, hupd]
  cases hc : okCachePayload item.state r.state <;>
    cases hst : b.stitchThrows <;>
    simp [stitchCalls, stitchSetFor, List.filterMap_append, List.filterMap_cons]

def c3r : OkResult :=
  ⟨[("kind", .str "component"), ("metadata", .obj [("name", .str "a")])],
    none,
    [.obj [("source", .obj [("kind", .str "component"), ("name", .str "y")])],
     .obj [("source", .obj [("kind", .str "component"), ("name", .str "z")])]],
    [], [], []⟩

def c3item : RefreshStateItem :=
  ⟨"uid-3", "component:default/a",
    [("kind", .str "component"), ("metadata", .obj [("name", .str "a")])],
    none, none, none⟩

def c3b : Behavior :=
  ⟨.ok (.ok c3r), false, .ok [], false,
    .ok ["component:default/x", "component:default/y"], false, false⟩

/-- Witness for C3: old relation sources `{X, Y}` and new relation
sources `{Y, Z}` on entity `A` stitch exactly `{A, X, Z}`. -/
theorem claim_C3_witness :
    stitchCalls (processTask c3item c3b).trace =
      [({"component:default/a", "component:default/z", "component:default/x"} :
        Finset String)] := by
  have h := claim_C3 c3item c3b c3r []
      ["component:default/x", "component:default/y"]
      [("name", Json.str "a")] rfl rfl rfl (by simp [c3item]) rfl rfl
  rw [h]
  decide

end Engine

namespace Engine

/-- Claim C4: the computed result hash drives the unchanged-detection
of the run and is a digest over exactly the serialized error list
plus, for successful results only, the canonical serializations of the
completed entity, the deferred entities, the relations, the refresh
keys and the parents fetched from the store; for failed results it
depends on the serialized errors alone, and it is invariant under
object key reordering of its inputs. -/
theorem claim_C4 :
    (∀ (item : RefreshStateItem) (b : Behavior) (res : EntityProcessingResult)
        (ps : List String),
      b.orch = .ok res → b.cacheTxThrows = false → b.listParents = .ok ps →
      ((processTask item b).outcome = .unchanged ↔
        item.resultHash = some (resultHashOf res ps))) ∧
    (∀ (r₁ r₂ : OkResult) (ps₁ ps₂ : List String),
      Json.stringify (.arr r₁.errors) = Json.stringify (.arr r₂.errors) →
      Json.canon (.obj r₁.completedEntity) = Json.canon (.obj r₂.completedEntity) →
      Json.canon (.arr r₁.deferredEntities) = Json.canon (.arr r₂.deferredEntities) →
      Json.canon (.arr r₁.relations) = Json.canon (.arr r₂.relations) →
      Json.canon (.arr r₁.refreshKeys) = Json.canon (.arr r₂.refreshKeys) →
      Json.canon (.arr (ps₁.map Json.str)) = Json.canon (.arr (ps₂.map Json.str)) →
      resultHashOf (.ok r₁) ps₁ = resultHashOf (.ok r₂) ps₂) ∧
    (∀ (es : List Json) (st₁ st₂ : Option JsonObj) (ps₁ ps₂ : List String),
      resultHashOf (.err es st₁) ps₁ = resultHashOf (.err es st₂) ps₂) ∧
    (∀ (r : OkResult) (f₂ : JsonObj) (ps : List String),
      r.completedEntity.Perm f₂ → (r.completedEntity.map Prod.fst).Nodup →
      resultHashOf (.ok r) ps =
        resultHashOf (.ok { r with completedEntity := f₂ }) ps) := by
  refine ⟨?_, ?_, ?_, ?_⟩
  · intro item b res ps horch hct hlp
    constructor
    · intro hout
      by_contra hh
      cases res with
      | err es st =>
        rw [processTask_err item b es st horch] at hout
        simp only [errRun, hct, Bool.false_eq_true, if_false] at hout
        rw [if_neg (show ¬item.resultHash =
          some (resultHashOf (.err es st) []) from hh)] at hout
        split_ifs at hout
      | ok r =>
        rw [processTask_ok item b r horch] at hout
        simp only [okRun, hct, Bool.and_false, Bool.false_eq_true, if_false,
          hlp] at hout
        rw [if_neg hh] at hout
        repeat' split at hout
        all_goals simp_all
    · intro hh
      cases res with
      | err es st =>
        rw [processTask_err item b es st horch]
        simp only [errRun, hct, Bool.false_eq_true, if_false]
        have hh' : item.resultHash = some (resultHashOf (.err es st) []) := hh
        rw [if_pos hh']
      | ok r =>
        rw [processTask_ok item b r horch]
        simp only [okRun, hct, Bool.and_false, Bool.false_eq_true, if_false, hlp]
        rw [if_pos hh]
  · intro r₁ r₂ ps₁ ps₂ h1 h2 h3 h4 h5 h6
    simp only [resultHashOf, Json.stableStringify]
    rw [h1, h2, h3, h4, h5, h6]
  · intro es st₁ st₂ ps₁ ps₂
    rfl
  · intro r f₂ ps hperm hnodup
    simp only [resultHashOf]
    rw [Json.stableStringify_obj_perm hperm hnodup]

def c4item : RefreshStateItem :=
  ⟨"uid-4", "component:default/d", [("kind", .str "component")],
    some [("ttl", .num 5)], none, some (resultHashOf (.err [.str "e"] none) [])⟩

def c4b : Behavior :=
  ⟨.ok (.err [.str "e"] none), false, .ok [], false, .ok [], false, false⟩

/-- Witness for C4: the unchanged-detection of a concrete failed run
is equivalent to the stored hash matching the digest of the serialized
errors. -/
theorem claim_C4_witness :
    (processTask c4item c4b).outcome = .unchanged ↔
      c4item.resultHash = some (resultHashOf (.err [.str "e"] none) []) :=
  claim_C4.1 c4item c4b (.err [.str "e"] none) [] rfl rfl rfl

end Engine

namespace Engine

/-- Claim C6: a failed result with a changed hash persists the
serialized errors together with the result hash via
`updateProcessedEntityErrors`, stitches exactly the singleton of the
item's entity's reference, notifies the error observer once with the
unprocessed entity and the errors, marks the item `ERRORED`, and the
run is unaffected by whether the detached observer notification
throws. -/
theorem claim_C6 (item : RefreshStateItem) (b : Behavior) (es : List Json)
    (st : Option JsonObj)
    (horch : b.orch = .ok (.err es st))
    (hct : b.cacheTxThrows = false)
    (hhash : item.resultHash ≠ some (resultHashOf (.err es st) []))
    (hetx : b.errorsTxThrows = false)
    (hstx : b.stitchThrows = false) :
    errorsWrites (processTask item b).trace =
      [(item.id, Json.stringify (.arr es), resultHashOf (.err es st) [])] ∧
    stitchCalls (processTask item b).trace =
      [({stringifyEntityRef (.obj item.unprocessedEntity)} : Finset String)] ∧
    observerNotifies (processTask item b).trace = [(item.unprocessedEntity, es)] ∧
    (processTask item b).outcome = .errored ∧
    processTask item { b with observerThrows := true } =
      processTask item { b with observerThrows := false } := by
  rw [processTask_err item b es st horch]
  simp only [errRun, hct, hetx, hstx, Bool.false_eq_true, if_false]
  rw [if_neg hhash]
  exact ⟨rfl, rfl, rfl, rfl, rfl⟩

def c6item : RefreshStateItem :=
  ⟨"uid-6", "component:default/g", [("kind", .str "component")],
    none, none, none⟩

def c6b : Behavior :=
  ⟨.ok (.err [.str "boom"] none), false, .ok [], false, .ok [], false, false⟩

/-- Witness for C6: a fresh failed item persists its serialized error
and hash, stitches its own reference only, notifies the observer, and
ends `ERRORED`. -/
theorem claim_C6_witness :
    errorsWrites (processTask c6item c6b).trace =
      [(c6item.id, Json.stringify (.arr [.str "boom"]),
        resultHashOf (.err [.str "boom"] none) [])] ∧
    stitchCalls (processTask c6item c6b).trace =
      [({stringifyEntityRef (.obj c6item.unprocessedEntity)} : Finset String)] ∧
    observerNotifies (processTask c6item c6b).trace =
      [(c6item.unprocessedEntity, [.str "boom"])] ∧
    (processTask c6item c6b).outcome = .errored :=
  have h := claim_C6 c6item c6b [.str "boom"] none rfl rfl
    (by simp [c6item]) rfl rfl
  ⟨h.1, h.2.1, h.2.2.1, h.2.2.2.1⟩

/-- Claim C7: an orchestrator throw is caught at the top of the
per-item handler: the run performs no store write and no stitch call
and the tracker records the failed outcome; more generally a throwing
collaborator call makes the run end failed, and a run in which no
collaborator throws (and the completed entity carries a metadata
object) never ends failed. -/
theorem claim_C7 (item : RefreshStateItem) (b : Behavior) :
    (b.orch = .error () → processTask item b = ⟨[], .failed⟩) ∧
    (∀ es st, b.orch = .ok (.err es st) → b.cacheTxThrows = true →
      (processTask item b).outcome = .failed) ∧
    (∀ r, b.orch = .ok (.ok r) → b.cacheTxThrows = false →
      b.listParents = .error () → (processTask item b).outcome = .failed) ∧
    (∀ res ps prev, b.orch = .ok res → b.cacheTxThrows = false →
      b.listParents = .ok ps → b.errorsTxThrows = false →
      b.updatePrev = .ok prev → b.stitchThrows = false →
      (∀ r, res = .ok r → (stampUid item.id r.completedEntity).isSome = true) →
      (processTask item b).outcome ≠ .failed) := by
  refine ⟨?_, ?_, ?_, ?_⟩
  · intro horch
    exact processTask_throw item b horch
  · intro es st horch hct
    rw [processTask_err item b es st horch]
    simp [errRun, hct]
  · intro r horch hct hlp
    rw [processTask_ok item b r horch]
    simp only [okRun, hct, Bool.and_false, Bool.false_eq_true, if_false, hlp]
  · intro res ps prev horch hct hlp hetx hupd hstx hstamp
    cases res with
    | err es st =>
      rw [processTask_err item b es st horch]
      simp only [errRun, hct, hetx, hstx, Bool.false_eq_true, if_false]
      split_ifs <;> simp
    | ok r =>
      rw [processTask_ok item b r horch]
      rcases Option.isSome_iff_exists.mp (hstamp r rfl) with ⟨stamped, hs⟩
      simp only [okRun, hct, hstx, Bool.and_false, Bool.false_eq_true, if_false,
        hlp, hupd, hs]
      split_ifs <;> simp

def c7item : RefreshStateItem :=
  ⟨"uid-7", "component:default/h", [("kind", .str "component")],
    some [("ttl", .num 2)], none, none⟩

def c7b : Behavior :=
  ⟨.error (), false, .ok [], false, .ok [], false, false⟩

/-- Witness for C7: when the orchestrator throws, the run makes no
calls at all and the tracker outcome is failed. -/
theorem claim_C7_witness :
    processTask c7item c7b = ⟨[], .failed⟩ :=
  (claim_C7 c7item c7b).1 rfl

end Engine
